import Mathlib

/-
Shallow embedding of src/refgene_parser/_refgene.py: the Interval data model
(with the Exon, CodingRegion, AminoRegion and Transcript subclasses), the
refGene record parser RefGene._line_to_transcript, and the accession lookup
RefGene.transcript_by_accession.

Python assertions and raised exceptions are modelled by Except PyErr results;
machine-level details that the module never relies on (arbitrary-precision
ints are Int, text is String) carry over directly.
-/

namespace RefGene

/-- Python exceptions raised by the module: AssertionError (from assert
statements in Interval.__init__), ValueError (from int() and from the
explicit raise statements in Exon.__init__), and TypeError (from comparing
None with an integer). -/
inductive PyErr where
  | assertionError (msg : String)
  | valueError (msg : String)
  | typeError
deriving Repr

/-- Python values that can appear in a metadata mapping or be returned from
attribute-style lookup (Interval.get and Interval.__getitem__). vDict models
a Python dict as an association list with distinct keys in insertion order;
vNone models Python None. -/
inductive PyVal where
  | vInt (i : Int)
  | vStr (s : String)
  | vNone
  | vDict (entries : List (String × PyVal))
deriving Repr

/-- The attribute record an Interval instance holds after __init__ (the
entries of self.__dict__ written by Interval.__init__, in order: chrom,
start, end, strand, name, score, metadata). `end` is an `end_` field because
Lean reserves the word. -/
structure Interval where
  chrom : String
  start : Int
  end_ : Int
  strand : String
  name : String
  score : Int
  metadata : List (String × PyVal)
deriving Repr

/-- Interval.__init__. The isinstance asserts on start, end, name and score
hold by typing here; the two value asserts are checked in source order:
end - start > 0 first, then strand membership in (".", "+", "-"). -/
def mkInterval (chrom : String) (start end_ : Int) (strand : String)
    (name : String) (score : Int) (metadata : List (String × PyVal)) :
    Except PyErr Interval :=
  if end_ - start > 0 then
    if strand = "." ∨ strand = "+" ∨ strand = "-" then
      .ok { chrom := chrom, start := start, end_ := end_, strand := strand,
            name := name, score := score, metadata := metadata }
    else
      .error (.assertionError "Strand must be \".\", \"+\", \"-\" only")
  else
    .error (.assertionError "Exclusive end must be greater than start")

/-- Interval.__len__: end - start. -/
def Interval.len (i : Interval) : Int := i.end_ - i.start

/-- Interval.__lt__: same chrom and strictly smaller start. -/
def Interval.lt (a b : Interval) : Bool :=
  a.chrom == b.chrom && a.start < b.start

/-- The lookup shared by Interval.get and Interval.__getitem__:
temp = self.__dict__.copy(); temp.update(self.metadata); temp.get(item, d).
dict.update lets metadata entries override same-named __dict__ entries, so
the metadata association list is consulted first. -/
def pyGet (dictView metadata : List (String × PyVal)) (item : String)
    (default : PyVal) : PyVal :=
  match metadata.lookup item with
  | some v => v
  | none =>
    match dictView.lookup item with
    | some v => v
    | none => default

/-- The __dict__ of a plain Interval, as written by Interval.__init__. -/
def Interval.dictView (i : Interval) : List (String × PyVal) :=
  [("chrom", .vStr i.chrom), ("start", .vInt i.start), ("end", .vInt i.end_),
   ("strand", .vStr i.strand), ("name", .vStr i.name),
   ("score", .vInt i.score), ("metadata", .vDict i.metadata)]

/-- Interval.get(item, default). -/
def Interval.get (i : Interval) (item : String) (default : PyVal) : PyVal :=
  pyGet i.dictView i.metadata item default

/-- Interval.__getitem__(item): same lookup with default None. -/
def Interval.getItem (i : Interval) (item : String) : PyVal :=
  pyGet i.dictView i.metadata item .vNone

/-- An Exon instance: the Interval part plus the rank and frame_offset
attributes set by Exon.__init__. rank is Option Int because the Python
parameter defaults to None; frame_offset is the stored value, where none
means the Python sentinel None (no frame, UTR). -/
structure Exon where
  base : Interval
  rank : Option Int
  frame_offset : Option Int
deriving Repr

/-- Exon.__init__. The superclass call passes metadata as a keyword argument,
so Interval collects it into a single-key kwargs dict: the Interval part gets
metadata \x7b"metadata": metadata\x7d and, because score is not forwarded,
the Interval default score 500. Then the frame_offset check (ValueError when
an integer frame is outside [-1, 2]) and the rank check run. The rank check
reads `not isinstance(rank, int) and rank > 0`: for any integer rank the
first conjunct is False and nothing is raised; for rank None the comparison
None > 0 raises TypeError. -/
def mkExon (chrom : String) (start end_ : Int) (strand : String)
    (rank : Option Int) (frame_offset : Option Int) (name : String)
    (metadata : List (String × PyVal)) : Except PyErr Exon :=
  match mkInterval chrom start end_ strand name 500
      [("metadata", .vDict metadata)] with
  | .error e => .error e
  | .ok base =>
    match frame_offset with
    | some f =>
      if f < -1 ∨ 2 < f then
        .error (.valueError
          "Frame offset must be None or integer and in set [-1, 2]")
      else
        match rank with
        | some _ =>
          .ok { base := base, rank := rank,
                frame_offset := if frame_offset == some (-1) then none
                                else frame_offset }
        | none => .error .typeError
    | none =>
      match rank with
      | some _ =>
        .ok { base := base, rank := rank, frame_offset := none }
      | none => .error .typeError

/-- Exon.is_UTR: true exactly when frame_offset is None. -/
def Exon.is_UTR (e : Exon) : Bool := e.frame_offset.isNone

/-- Helper rendering rank or frame_offset as the Python value stored in
__dict__. -/
def optIntToPy : Option Int → PyVal
  | some i => .vInt i
  | none => .vNone

/-- The __dict__ of an Exon: the Interval entries followed by rank and
frame_offset. -/
def Exon.dictView (e : Exon) : List (String × PyVal) :=
  e.base.dictView ++ [("rank", optIntToPy e.rank),
                      ("frame_offset", optIntToPy e.frame_offset)]

/-- Exon.get(item, default), inherited from Interval but consulting the
Exon __dict__. -/
def Exon.get (e : Exon) (item : String) (default : PyVal) : PyVal :=
  pyGet e.dictView e.base.metadata item default

/-- Exon.__getitem__(item). -/
def Exon.getItem (e : Exon) (item : String) : PyVal :=
  pyGet e.dictView e.base.metadata item .vNone

/-- AminoRegion.__init__: delegates to Interval with the same
metadata-as-keyword slip (metadata arrives wrapped under the key
"metadata") and without forwarding score, so score is always 500. -/
def mkAminoRegion (chrom : String) (start end_ : Int) (strand : String)
    (name : String) (score : Int) (metadata : List (String × PyVal)) :
    Except PyErr Interval :=
  mkInterval chrom start end_ strand name 500 [("metadata", .vDict metadata)]

/-- CodingRegion.__init__: identical delegation to Interval as AminoRegion
(score never forwarded, metadata wrapped under the "metadata" key). -/
def mkCodingRegionBase (chrom : String) (start end_ : Int) (strand : String)
    (name : String) (score : Int) (metadata : List (String × PyVal)) :
    Except PyErr Interval :=
  mkInterval chrom start end_ strand name 500 [("metadata", .vDict metadata)]

/-- A Transcript instance: the Interval part plus the attributes set by
Transcript.__init__ and the mutable _exons list the parser appends to
(exonsRaw, in file-iteration order). The coordinates the parser supplies are
integers, so accession, the coding bounds and the status strings are stored
at the types the parser passes. -/
structure Transcript where
  base : Interval
  accession : String
  transcript_start : Int
  transcript_stop : Int
  coding_start : Int
  coding_end : Int
  coding_start_status : String
  coding_end_status : String
  exonsRaw : List Exon
deriving Repr

/-- Transcript.__init__. As with Exon, the superclass call wraps metadata
under the "metadata" key and does not forward score, so the Interval part
always gets the default score 500: the score argument is accepted but never
stored anywhere on the instance. _exons starts empty. -/
def mkTranscript (chrom : String) (start end_ : Int) (strand : String)
    (name : String) (accession : String) (coding_start coding_end : Int)
    (score : PyVal) (coding_start_status coding_end_status : String)
    (metadata : List (String × PyVal)) : Except PyErr Transcript :=
  match mkInterval chrom start end_ strand name 500
      [("metadata", .vDict metadata)] with
  | .error e => .error e
  | .ok base =>
    .ok { base := base, accession := accession, transcript_start := start,
          transcript_stop := end_, coding_start := coding_start,
          coding_end := coding_end,
          coding_start_status := coding_start_status,
          coding_end_status := coding_end_status, exonsRaw := [] }

/-- Insert an exon after every already-placed exon that is not strictly
greater under Interval.__lt__ (same chrom and larger start). Folding this
over the raw list is a stable sort with respect to __lt__, which is what
CPython's sorted() computes whenever __lt__ is a strict weak order on the
elements — in particular whenever all exons share one chrom, as every
parser-built transcript guarantees. -/
def insertSortedExon (a : Exon) : List Exon → List Exon
  | [] => [a]
  | b :: bs =>
    if Interval.lt a.base b.base then a :: b :: bs
    else b :: insertSortedExon a bs

/-- The exons getter: sorted(self._exons), recomputed on every access. -/
def Transcript.exons (t : Transcript) : List Exon :=
  t.exonsRaw.foldl (fun acc e => insertSortedExon e acc) []

/-- Transcript.num_exons. -/
def Transcript.num_exons (t : Transcript) : Nat := t.exons.length

/-- A CodingRegion produced by Transcript.coding_intervals: the validated
Interval part plus the cds.exon back-reference assigned right after
construction. The cds.transcript back-reference is a cyclic object
reference (the transcript owns the source exon) and is not representable
as a field of a value; no consumer in the module reads it. -/
structure CodingRegion where
  base : Interval
  exon : Exon
deriving Repr

/-- The clipping step of Transcript.coding_intervals for one retained exon:
if coding_start falls inside [exon.start, exon.end] (Python
`x in range(a, b + 1)` is a ≤ x ≤ b for integers) the region is
[coding_start, exon.end]; else if coding_end falls inside, the region is
[exon.start, coding_end]; else the whole exon range is the region. -/
def clipToCds (t : Transcript) (exon : Exon) : Int × Int :=
  if exon.base.start ≤ t.coding_start ∧
      t.coding_start ≤ exon.base.end_ then
    (t.coding_start, exon.base.end_)
  else if exon.base.start ≤ t.coding_end ∧
      t.coding_end ≤ exon.base.end_ then
    (exon.base.start, t.coding_end)
  else
    (exon.base.start, exon.base.end_)

/-- The loop of Transcript.coding_intervals over the sorted exons: skip UTR
exons and exons wholly outside [coding_start, coding_end]; clip the rest;
build a CodingRegion through CodingRegion.__init__, whose Interval
validation can raise AssertionError; collect in exon order. -/
def codingLoop (t : Transcript) : List Exon → Except PyErr (List CodingRegion)
  | [] => .ok []
  | exon :: rest =>
    if exon.is_UTR = true ∨ t.coding_start > exon.base.end_ ∨
        t.coding_end < exon.base.start then
      codingLoop t rest
    else
      match mkCodingRegionBase exon.base.chrom (clipToCds t exon).1
          (clipToCds t exon).2 exon.base.strand "." 500 [] with
      | .error e => .error e
      | .ok base =>
        match codingLoop t rest with
        | .error e => .error e
        | .ok cds => .ok ({ base := base, exon := exon } :: cds)

/-- Transcript.coding_intervals: derived fresh from the sorted exons on
every access. -/
def Transcript.coding_intervals (t : Transcript) :
    Except PyErr (List CodingRegion) :=
  codingLoop t t.exons

/-- Transcript.coding_length: sum of len(cds) over coding_intervals. -/
def Transcript.coding_length (t : Transcript) : Except PyErr Int :=
  match t.coding_intervals with
  | .error e => .error e
  | .ok l => .ok (l.map (fun c => c.base.len)).sum

/-- Digit accumulator for pyInt. -/
def digitsCore : List Char → Nat → Option Nat
  | [], acc => some acc
  | c :: cs, acc =>
    if '0' ≤ c ∧ c ≤ '9' then
      digitsCore cs (acc * 10 + (c.toNat - 48))
    else
      none

/-- Digits of a nonempty all-digit character list, as a Nat. -/
def digitsToNat : List Char → Option Nat
  | [] => none
  | cs => digitsCore cs 0

/-- Python int(s) on the token shapes an optionally signed decimal field can
take: an optional single leading sign followed by at least one digit parses
to the integer, anything else (in particular the empty string) raises
ValueError. -/
def pyInt (s : String) : Except PyErr Int :=
  match s.toList with
  | '-' :: rest =>
    match digitsToNat rest with
    | some n => .ok (-(n : Int))
    | none => .error (.valueError "invalid literal for int() with base 10")
  | '+' :: rest =>
    match digitsToNat rest with
    | some n => .ok (n : Int)
    | none => .error (.valueError "invalid literal for int() with base 10")
  | cs =>
    match digitsToNat cs with
    | some n => .ok (n : Int)
    | none => .error (.valueError "invalid literal for int() with base 10")

/-- Character-list worker for splitCommas: split on every comma, keeping
empty pieces, exactly like Python str.split with an explicit separator. -/
def splitCommasAux : List Char → List Char → List String
  | [], acc => [String.mk acc.reverse]
  | c :: cs, acc =>
    if c = ',' then
      String.mk acc.reverse :: splitCommasAux cs []
    else
      splitCommasAux cs (c :: acc)

/-- Python s.split(","): the empty string gives [""], a trailing comma
gives a trailing empty piece. -/
def splitCommas (s : String) : List String :=
  splitCommasAux s.toList []

/-- Python range(1, n + 1): the ascending rank sequence 1..n used for "+"
and unspecified strand; empty when n is not positive. -/
def rankAscending (n : Int) : List Int :=
  (List.range n.toNat).map (fun i => Int.ofNat (i + 1))

/-- Python range(n, 0, -1): the descending rank sequence n..1 used for "-"
strand; empty when n is not positive. -/
def rankDescending (n : Int) : List Int :=
  (List.range n.toNat).map (fun i => n - Int.ofNat i)

/-- Python zip over the four parallel sequences (exon start token, end
token, frame token, rank), truncating to the shortest. -/
def zip4 : List String → List String → List String → List Int →
    List (String × String × String × Int)
  | s :: ss, e :: es, f :: fs, r :: rs => (s, e, f, r) :: zip4 ss es fs rs
  | _, _, _, _ => []

/-- The exon-construction loop of RefGene._line_to_transcript: a triplet
with an empty start, end or frame token is skipped silently; otherwise the
three tokens go through int() and Exon.__init__ (either can raise, aborting
the whole line), name defaulting to "." and no extra metadata. The
exon.transcript back-reference assigned in the loop is a cyclic object
reference (the transcript owns the exon) and is not representable as a
field of a value; no claim-relevant consumer reads it. -/
def buildExons (chrom strand : String) :
    List (String × String × String × Int) → Except PyErr (List Exon)
  | [] => .ok []
  | (s, e, f, r) :: rest =>
    if s = "" ∨ e = "" ∨ f = "" then
      buildExons chrom strand rest
    else
      match pyInt s with
      | .error err => .error err
      | .ok si =>
        match pyInt e with
        | .error err => .error err
        | .ok ei =>
          match pyInt f with
          | .error err => .error err
          | .ok fi =>
            match mkExon chrom si ei strand (some r) (some fi) "." [] with
            | .error err => .error err
            | .ok ex =>
              match buildExons chrom strand rest with
              | .error err => .error err
              | .ok exs => .ok (ex :: exs)

/-- The body of RefGene._line_to_transcript after tuple unpacking, on the
15 used fields (bin is discarded by the unpacking). Conversions and
constructions run in source evaluation order: int() on the four transcript
coordinates, Transcript construction, the comma splits, int() on exonCount,
strand-dependent rank sequence, then the exon loop; the built exons are the
final _exons list of the returned transcript. -/
def parseFields (accession chrom strand transcript_start transcript_stop
    coding_start coding_end num_exons exon_starts exon_ends score alt_name
    coding_start_status coding_end_status exon_frames : String) :
    Except PyErr Transcript :=
  match pyInt transcript_start with
  | .error e => .error e
  | .ok ts =>
    match pyInt transcript_stop with
    | .error e => .error e
    | .ok te =>
      match pyInt coding_start with
      | .error e => .error e
      | .ok cs =>
        match pyInt coding_end with
        | .error e => .error e
        | .ok ce =>
          match mkTranscript chrom ts te strand alt_name accession cs ce
              (.vStr score) coding_start_status coding_end_status [] with
          | .error e => .error e
          | .ok tr =>
            match pyInt num_exons with
            | .error e => .error e
            | .ok n =>
              match buildExons chrom strand
                  (zip4 (splitCommas exon_starts) (splitCommas exon_ends)
                    (splitCommas exon_frames)
                    (if strand = "-" then rankDescending n
                     else rankAscending n)) with
              | .error e => .error e
              | .ok exs => .ok { tr with exonsRaw := exs }

/-- RefGene._line_to_transcript on the already-tab-split line: tuple
unpacking into 16 names succeeds only for a 16-element list and raises
ValueError otherwise; on success the fields feed parseFields. -/
def lineToTranscript : List String → Except PyErr Transcript
  | [_bin, accession, chrom, strand, transcript_start, transcript_stop,
     coding_start, coding_end, num_exons, exon_starts, exon_ends, score,
     alt_name, coding_start_status, coding_end_status, exon_frames] =>
    parseFields accession chrom strand transcript_start transcript_stop
      coding_start coding_end num_exons exon_starts exon_ends score alt_name
      coding_start_status coding_end_status exon_frames
  | _ => .error (.valueError "values to unpack (expected 16)")

/-- RefGene.__iter__ / __next__ driven to exhaustion over the decoded,
stripped, tab-split lines of the file: each line goes through
_line_to_transcript, and a raised exception aborts the traversal. -/
def refGeneAll (lines : List (List String)) : Except PyErr (List Transcript) :=
  match lines with
  | [] => .ok []
  | line :: rest =>
    match lineToTranscript line with
    | .error e => .error e
    | .ok t =>
      match refGeneAll rest with
      | .error e => .error e
      | .ok ts => .ok (t :: ts)

/-- Character-list test that p is an initial segment of s. -/
def charListIsInitial : List Char → List Char → Bool
  | [], _ => true
  | _ :: _, [] => false
  | p :: ps, c :: cs => p == c && charListIsInitial ps cs

/-- Python re.compile(pattern, re.IGNORECASE) followed by pattern.match(s),
on patterns that contain no regex metacharacters (such as the literal
accession prefixes the lookup is documented with): match is anchored at the
start of s but not at its end, so it succeeds exactly when s starts with
the pattern up to ASCII case. -/
def reMatchLit (pattern s : String) : Bool :=
  charListIsInitial (pattern.toList.map Char.toLower)
    (s.toList.map Char.toLower)

/-- RefGene.transcript_by_accession(accession): a fresh full traversal of
the reader keeping exactly the transcripts whose accession matches the
compiled case-insensitive pattern at the start. -/
def transcript_by_accession (accession : String)
    (lines : List (List String)) : Except PyErr (List Transcript) :=
  match refGeneAll lines with
  | .error e => .error e
  | .ok ts => .ok (ts.filter (fun t => reMatchLit accession t.accession))

/-- Proof-side accessor naming the transcript a successfully parsed line
yields, with an inert placeholder on failure. It only serves to state
concrete instances without an existential; every use is accompanied by an
explicit equation lineToTranscript line = .ok (parsedTranscript line). -/
def parsedTranscript (line : List String) : Transcript :=
  match lineToTranscript line with
  | .ok t => t
  | .error _ =>
    Transcript.mk (Interval.mk "" 0 1 "." "." 500 []) "" 0 1 0 0 "" "" []

/-- The worked 16-field example line of the specification. -/
def exampleLine : List String :=
  ["0", "NM_001", "chr1", "+", "100", "500", "150", "450", "2", "100,300",
   "200,500", "0", "GENE1", "cmpl", "cmpl", "0,1"]

/-- A 16-field line whose single exon extends far beyond the transcript
span (the parser performs no containment check between exon coordinates
and the transcript coordinates). -/
def oversizedExonLine : List String :=
  ["0", "NM_X", "chr1", "+", "100", "200", "0", "1000", "1", "0,", "1000,",
   "0", "G", "cmpl", "cmpl", "0,"]

/-- The example line with exonFrames "0," so that the second exon triplet
carries an empty frame token. -/
def emptyFrameLine : List String :=
  ["0", "NM_001", "chr1", "+", "100", "500", "150", "450", "2", "100,300",
   "200,500", "0", "GENE1", "cmpl", "cmpl", "0,"]

/-- A 16-field line whose single coding exon ends exactly at cdsStart. -/
def boundaryExonLine : List String :=
  ["0", "NM_9", "chr1", "+", "100", "500", "150", "450", "1", "100,",
   "150,", "0", "G", "cmpl", "cmpl", "0,"]

/-- A well-formed line for accession NM_001. -/
def accessionLineA : List String :=
  ["0", "NM_001", "chr1", "+", "100", "500", "150", "450", "1", "100,",
   "500,", "0", "G1", "cmpl", "cmpl", "0,"]

/-- A well-formed line for accession NM_0012. -/
def accessionLineB : List String :=
  ["0", "NM_0012", "chr1", "+", "100", "500", "150", "450", "1", "100,",
   "500,", "0", "G2", "cmpl", "cmpl", "0,"]

/-- A minus-strand two-exon line with well-formed triplets in increasing
genomic order. -/
def minusStrandLine : List String :=
  ["0", "NM_4", "chr1", "-", "100", "500", "150", "450", "2", "100,300",
   "200,500", "0", "G", "cmpl", "cmpl", "0,1"]

/-- A 15-field line (exonFrames missing). -/
def fifteenFieldLine : List String :=
  ["0", "NM_001", "chr1", "+", "100", "500", "150", "450", "2", "100,300",
   "200,500", "0", "GENE1", "cmpl", "cmpl"]

/-- Inversion for a successful Interval construction: the asserts held and
the record stores the arguments unchanged. -/
theorem mkInterval_ok_inv {chrom : String} {start end_ : Int}
    {strand name : String} {score : Int} {metadata : List (String × PyVal)}
    {iv : Interval}
    (h : mkInterval chrom start end_ strand name score metadata = .ok iv) :
    iv = { chrom := chrom, start := start, end_ := end_, strand := strand,
           name := name, score := score, metadata := metadata } ∧
      end_ - start > 0 ∧ (strand = "." ∨ strand = "+" ∨ strand = "-") := by
  unfold mkInterval at h
  split at h
  · split at h
    · rename_i h1 h2
      injection h with h
      exact ⟨h.symm, h1, h2⟩
    · exact Except.noConfusion h
  · exact Except.noConfusion h

/-- A successfully constructed Transcript carries the Interval default
score 500: Transcript.__init__ never forwards its score argument. -/
theorem mkTranscript_ok_score {chrom : String} {start end_ : Int}
    {strand name accession : String} {cs ce : Int} {score : PyVal}
    {css ces : String} {metadata : List (String × PyVal)} {tr : Transcript}
    (h : mkTranscript chrom start end_ strand name accession cs ce score
      css ces metadata = .ok tr) : tr.base.score = 500 := by
  unfold mkTranscript at h
  split at h
  · exact Except.noConfusion h
  · rename_i base hbase
    injection h with h
    subst h
    rw [(mkInterval_ok_inv hbase).1]

/-- C6: a line that does not split into exactly 16 fields makes
_line_to_transcript raise (tuple unpacking fails) and never produces a
Transcript, and a successful parse can only come from a 16-field line. -/
theorem c6_sixteen_fields_required :
    (∀ line : List String, line.length ≠ 16 →
      (lineToTranscript line).isOk = false) ∧
    (∀ (line : List String) (t : Transcript),
      lineToTranscript line = .ok t → line.length = 16) := by
  constructor
  · intro line h
    unfold lineToTranscript
    split
    · rename_i a b c d e f g h8 i j k l m n o p
      simp at h
    · rfl
  · intro line t h
    unfold lineToTranscript at h
    split at h
    · simp
    · exact Except.noConfusion h

/-- C6 witness: a concrete 15-field line does not parse. -/
theorem c6_witness_fifteen_fields :
    fifteenFieldLine.length ≠ 16 ∧
      (lineToTranscript fifteenFieldLine).isOk = false :=
  ⟨by decide, c6_sixteen_fields_required.1 fifteenFieldLine (by decide)⟩

/-- C10: every successfully parsed line yields a Transcript whose score is
the Interval default 500, whatever the score column said: _line_to_transcript
hands the raw score string to Transcript.__init__, which accepts and drops
it. -/
theorem c10_score_always_default (line : List String) (t : Transcript)
    (h : lineToTranscript line = .ok t) : t.base.score = 500 := by
  unfold lineToTranscript at h
  split at h
  · unfold parseFields at h
    repeat (split at h <;> try exact Except.noConfusion h)
    rename_i a tr htr b n hn c exs hexs
    injection h with h
    rw [← h]
    show tr.base.score = 500
    exact mkTranscript_ok_score htr
  · exact Except.noConfusion h

/-- C10 witness: the example line parses with score column "0" but the
resulting transcript has score 500. -/
theorem c10_witness_example_line :
    lineToTranscript exampleLine = .ok (parsedTranscript exampleLine) ∧
      (parsedTranscript exampleLine).base.score = 500 :=
  ⟨rfl, c10_score_always_default exampleLine (parsedTranscript exampleLine)
    rfl⟩

/-- A successful Exon construction stores the rank argument unchanged. -/
theorem mkExon_ok_rank {chrom : String} {start end_ : Int} {strand : String}
    {rank fo : Option Int} {name : String}
    {metadata : List (String × PyVal)} {ex : Exon}
    (h : mkExon chrom start end_ strand rank fo name metadata = .ok ex) :
    ex.rank = rank := by
  unfold mkExon at h
  repeat (split at h <;> try exact Except.noConfusion h)
  all_goals (repeat (split at h <;> try exact Except.noConfusion h))
  all_goals (injection h with h; rw [← h])

/-- zip4 over sequences of equal length projects back to the rank list. -/
theorem zip4_map_rank :
    ∀ (a b c : List String) (d : List Int), a.length = d.length →
      b.length = d.length → c.length = d.length →
      (zip4 a b c d).map (fun q => q.2.2.2) = d := by
  intro a b c d
  induction d generalizing a b c with
  | nil =>
    intro _ _ _
    cases a <;> cases b <;> cases c <;> rfl
  | cons r rs ih =>
    intro h1 h2 h3
    cases a with
    | nil => simp at h1
    | cons s ss =>
      cases b with
      | nil => simp at h2
      | cons e es =>
        cases c with
        | nil => simp at h3
        | cons f fs =>
          simp only [List.length_cons, Nat.add_right_cancel_iff] at h1 h2 h3
          simp only [zip4, List.map_cons, List.cons.injEq, true_and]
          exact ih ss es fs h1 h2 h3

/-- Each component of a zip4 member comes from its input list. -/
theorem zip4_mem :
    ∀ (a b c : List String) (d : List Int)
      (q : String × String × String × Int), q ∈ zip4 a b c d →
      q.1 ∈ a ∧ q.2.1 ∈ b ∧ q.2.2.1 ∈ c := by
  intro a
  induction a with
  | nil =>
    intro b c d q h
    cases b <;> cases c <;> cases d <;> simp [zip4] at h
  | cons s ss ih =>
    intro b c d q h
    cases b with
    | nil => simp [zip4] at h
    | cons e es =>
      cases c with
      | nil => simp [zip4] at h
      | cons f fs =>
        cases d with
        | nil => simp [zip4] at h
        | cons r rs =>
          simp only [zip4, List.mem_cons] at h
          rcases h with h | h
          · subst h
            exact ⟨List.mem_cons_self .., List.mem_cons_self ..,
              List.mem_cons_self ..⟩
          · obtain ⟨h1, h2, h3⟩ := ih es fs rs q h
            exact ⟨List.mem_cons_of_mem _ h1, List.mem_cons_of_mem _ h2,
              List.mem_cons_of_mem _ h3⟩

/-- When no triplet has an empty token, a successful exon loop yields
exactly one exon per triplet, carrying the zipped rank. -/
theorem buildExons_map_rank (chrom strand : String) :
    ∀ (L : List (String × String × String × Int)) (exs : List Exon),
      (∀ q ∈ L, ¬(q.1 = "" ∨ q.2.1 = "" ∨ q.2.2.1 = "")) →
      buildExons chrom strand L = .ok exs →
      exs.map (fun e => e.rank) = L.map (fun q => some q.2.2.2) := by
  intro L
  induction L with
  | nil =>
    intro exs _ h
    simp only [buildExons] at h
    injection h with h
    rw [← h]
    rfl
  | cons q L ih =>
    intro exs hwf h
    obtain ⟨s, e, f, r⟩ := q
    simp only [buildExons] at h
    rw [if_neg (hwf (s, e, f, r) (List.mem_cons_self ..))] at h
    repeat (split at h <;> try exact Except.noConfusion h)
    rename_i a1 si h1 a2 ei h2 a3 fi h3 a4 ex hex a5 exs' hexs
    injection h with h
    rw [← h]
    simp only [List.map_cons, mkExon_ok_rank hex, List.cons.injEq, true_and]
    exact ih exs' (fun p hp => hwf p (List.mem_cons_of_mem _ hp)) hexs

/-- rankAscending on a natural count has that many entries. -/
theorem rankAscending_length (n : Nat) :
    (rankAscending (n : Int)).length = n := by
  unfold rankAscending
  rw [List.length_map, List.length_range]
  simp

/-- rankDescending on a natural count has that many entries. -/
theorem rankDescending_length (n : Nat) :
    (rankDescending (n : Int)).length = n := by
  unfold rankDescending
  rw [List.length_map, List.length_range]
  simp

/-- C4: for a parsed line with N well-formed exon triplets (no empty token,
consistent exonCount) listed in increasing genomic order, the ranks zipped
to the triplets in file order are N..1 on the minus strand and 1..N
otherwise — so the first triplet yields the exon ranked N (minus strand)
or 1 (plus or unspecified strand), and the last yields 1 resp. N. -/
theorem c4_strand_rank_assignment
    (bin accession chrom strand tsS teS csS ceS neS esS eeS scS anS cssS
      cesS efS : String) (t : Transcript) (N : Nat)
    (hok : lineToTranscript [bin, accession, chrom, strand, tsS, teS, csS,
        ceS, neS, esS, eeS, scS, anS, cssS, cesS, efS] = .ok t)
    (hn : pyInt neS = .ok (N : Int))
    (hs : (splitCommas esS).length = N)
    (he : (splitCommas eeS).length = N)
    (hf : (splitCommas efS).length = N)
    (hwfS : "" ∉ splitCommas esS)
    (hwfE : "" ∉ splitCommas eeS)
    (hwfF : "" ∉ splitCommas efS)
    (hincr : List.Pairwise (fun a b => a.base.start < b.base.start)
      t.exonsRaw) :
    t.exonsRaw.map (fun e => e.rank)
      = (if strand = "-" then rankDescending (N : Int)
         else rankAscending (N : Int)).map some := by
  have h : parseFields accession chrom strand tsS teS csS ceS neS esS eeS
      scS anS cssS cesS efS = .ok t := hok
  unfold parseFields at h
  repeat (split at h <;> try exact Except.noConfusion h)
  rename_i a tr htr b n hn' c exs hexs
  rw [hn] at hn'
  injection hn' with hn'
  subst hn'
  injection h with h
  rw [← h]
  show exs.map (fun e => e.rank) = _
  have hranks : ((if strand = "-" then rankDescending (N : Int)
      else rankAscending (N : Int))).length = N := by
    split
    · exact rankDescending_length N
    · exact rankAscending_length N
  have hwf : ∀ q ∈ zip4 (splitCommas esS) (splitCommas eeS)
      (splitCommas efS) (if strand = "-" then rankDescending (N : Int)
        else rankAscending (N : Int)),
      ¬(q.1 = "" ∨ q.2.1 = "" ∨ q.2.2.1 = "") := by
    intro q hq
    obtain ⟨m1, m2, m3⟩ := zip4_mem _ _ _ _ q hq
    rintro (hc | hc | hc)
    · exact hwfS (hc ▸ m1)
    · exact hwfE (hc ▸ m2)
    · exact hwfF (hc ▸ m3)
  have hz := zip4_map_rank (splitCommas esS) (splitCommas eeS)
    (splitCommas efS)
    (if strand = "-" then rankDescending (N : Int)
     else rankAscending (N : Int))
    (by rw [hranks]; exact hs) (by rw [hranks]; exact he)
    (by rw [hranks]; exact hf)
  rw [buildExons_map_rank chrom strand _ exs hwf hexs]
  conv_rhs => rw [← hz, List.map_map]
  rfl

/-- C4 witness: the concrete minus-strand two-exon line gets file-order
ranks 2 then 1. -/
theorem c4_witness_minus_strand :
    lineToTranscript minusStrandLine
        = .ok (parsedTranscript minusStrandLine) ∧
      (parsedTranscript minusStrandLine).exonsRaw.map (fun e => e.rank)
        = (if "-" = "-" then rankDescending ((2 : Nat) : Int)
           else rankAscending ((2 : Nat) : Int)).map some :=
  ⟨rfl,
    c4_strand_rank_assignment "0" "NM_4" "chr1" "-" "100" "500" "150" "450"
      "2" "100,300" "200,500" "0" "G" "cmpl" "cmpl" "0,1"
      (parsedTranscript minusStrandLine) 2 rfl rfl rfl rfl rfl (by decide)
      (by decide) (by decide) (by decide)⟩

/-- C1: parsing the 16-field example line produces a Transcript with
accession NM_001, exactly two exons ranked 1 and 2, coding_intervals equal
to the half-open regions [150, 200) and [300, 450) in that order, and
coding_length 200. -/
theorem c1_example_line_parse :
    (lineToTranscript exampleLine).map (fun t =>
        (t.accession, t.exons.map (fun e => e.rank),
         t.coding_intervals.map
           (List.map (fun c => (c.base.start, c.base.end_))),
         t.coding_length))
      = .ok ("NM_001", [some 1, some 2],
          .ok [((150 : Int), (200 : Int)), (300, 450)], .ok 200) :=
  rfl

/-- C2: the claimed metadata-over-built-in precedence is lost on the
subclasses. Constructing an Exon with the extra metadata pair
score = 77 stores the pair nested under the single key "metadata" (the
superclass call passes metadata as a keyword argument), so both get and
indexed access on the key "score" return the built-in field value 500
instead of the metadata value 77; a key that exists only as a built-in
field (here "start") is still returned correctly. -/
theorem c2_metadata_override_lost :
    (mkExon "chr1" 1 10 "." (some 1) (some 0) "."
        [("score", PyVal.vInt 77)]).map (fun ex =>
        (ex.base.metadata, ex.get "score" PyVal.vNone, ex.getItem "score",
         ex.get "start" PyVal.vNone))
      = .ok ([("metadata", PyVal.vDict [("score", PyVal.vInt 77)])],
          PyVal.vInt 500, PyVal.vInt 500, PyVal.vInt 1) :=
  rfl

/-- Each clipped coding region stays inside its source exon. -/
theorem clipToCds_bounds (t : Transcript) (exon : Exon) :
    exon.base.start ≤ (clipToCds t exon).1 ∧
      (clipToCds t exon).2 ≤ exon.base.end_ := by
  unfold clipToCds
  split
  · rename_i h
    exact ⟨h.1, le_refl _⟩
  · split
    · rename_i h
      exact ⟨le_refl _, h.2⟩
    · exact ⟨le_refl _, le_refl _⟩

/-- The emitted coding regions of a run of the coding-interval loop over
exons that sit inside [lo, E] and are pairwise disjoint in list order have
total length at most E - lo. -/
theorem codingLoop_sum_le (t : Transcript) :
    ∀ (es : List Exon) (lo E : Int) (rs : List CodingRegion),
      codingLoop t es = .ok rs →
      (∀ e ∈ es, lo ≤ e.base.start ∧ e.base.end_ ≤ E) →
      List.Pairwise (fun a b => a.base.end_ ≤ b.base.start) es →
      lo ≤ E →
      (rs.map (fun c => c.base.len)).sum ≤ E - lo := by
  intro es
  induction es with
  | nil =>
    intro lo E rs h _ _ hle
    simp only [codingLoop] at h
    injection h with h
    rw [← h]
    simp only [List.map_nil, List.sum_nil]
    omega
  | cons exon rest ih =>
    intro lo E rs h hin hpw hle
    have hx := hin exon (List.mem_cons_self ..)
    have hrest : ∀ e ∈ rest, lo ≤ e.base.start ∧ e.base.end_ ≤ E :=
      fun e he => hin e (List.mem_cons_of_mem _ he)
    rw [List.pairwise_cons] at hpw
    obtain ⟨hhead, htail⟩ := hpw
    simp only [codingLoop] at h
    split at h
    · exact ih lo E rs h hrest htail hle
    · repeat (split at h <;> try exact Except.noConfusion h)
      rename_i a base hbase b cds hcds
      injection h with h
      rw [← h]
      have hclip := clipToCds_bounds t exon
      unfold mkCodingRegionBase at hbase
      have hbase' := (mkInterval_ok_inv hbase).1
      have hrest2 : ∀ e ∈ rest,
          exon.base.end_ ≤ e.base.start ∧ e.base.end_ ≤ E :=
        fun e he => ⟨hhead e he, (hrest e he).2⟩
      have hS := ih exon.base.end_ E cds hcds hrest2 htail hx.2
      rw [List.map_cons, List.sum_cons]
      have hlen : base.len = (clipToCds t exon).2 - (clipToCds t exon).1 := by
        rw [hbase']
        rfl
      show base.len + (cds.map (fun c => c.base.len)).sum ≤ E - lo
      rw [hlen]
      obtain ⟨hc1, hc2⟩ := hclip
      obtain ⟨hx1, hx2⟩ := hx
      omega

/-- C3 amended: for a Transcript with a valid span whose sorted exons all
sit inside [start, end] and are pairwise disjoint, coding_length (when it
returns) is at most the transcript length end - start. -/
theorem c3_amended_coding_length_bound (t : Transcript) (cl : Int)
    (hT : t.base.start ≤ t.base.end_)
    (hin : ∀ e ∈ t.exons,
      t.base.start ≤ e.base.start ∧ e.base.end_ ≤ t.base.end_)
    (hdisj : List.Pairwise (fun a b => a.base.end_ ≤ b.base.start) t.exons)
    (hcl : t.coding_length = .ok cl) :
    cl ≤ t.base.len := by
  unfold Transcript.coding_length at hcl
  split at hcl
  · exact Except.noConfusion hcl
  · rename_i l hl
    injection hcl with hcl
    rw [← hcl]
    exact codingLoop_sum_le t t.exons t.base.start t.base.end_ l hl hin
      hdisj hT

/-- C3 amended witness: on the parsed example line the bound holds with
coding_length 200 against transcript length 400. -/
theorem c3_amended_witness_example :
    lineToTranscript exampleLine = .ok (parsedTranscript exampleLine) ∧
      (parsedTranscript exampleLine).coding_length = .ok 200 ∧
      (200 : Int) ≤ (parsedTranscript exampleLine).base.len :=
  ⟨rfl, rfl,
    c3_amended_coding_length_bound (parsedTranscript exampleLine) 200
      (by decide) (by decide) (by decide) rfl⟩

/-- C3 counterexample: a successfully parsed transcript whose coding_length
(1000) strictly exceeds its own length (end - start = 100), because the
parser accepts exon coordinates far outside the transcript span. -/
theorem c3_counterexample_oversized_exon :
    (lineToTranscript oversizedExonLine).map
        (fun t => (t.coding_length, t.base.len))
      = .ok (.ok 1000, 100) ∧ ¬ ((1000 : Int) ≤ (100 : Int)) :=
  ⟨rfl, by decide⟩

/-- C5: the rank check of Exon.__init__ never rejects an integer rank,
because `not isinstance(rank, int)` is False for every integer: rank 0 and
rank -3 are both accepted, although the claim requires a validation error
for every integer rank not greater than 0. -/
theorem c5_nonpositive_integer_rank_accepted :
    (mkExon "chr1" 1 10 "." (some 0) (some 0) "." []).map (fun e => e.rank)
      = .ok (some 0) ∧
    (mkExon "chr1" 1 10 "." (some (-3)) (some 0) "." []).map
        (fun e => e.rank)
      = .ok (some (-3)) :=
  ⟨rfl, rfl⟩

/-- C7: an exon triplet whose start, end or frame token is the empty string
is dropped silently — the exon loop produces the same result as on the list
without that triplet — and on the example line with exonFrames "0," the
transcript is still produced with only the first exon, the second having
been dropped. -/
theorem c7_empty_token_triplet_skipped :
    (∀ (chrom strand : String)
        (pre post : List (String × String × String × Int))
        (s e f : String) (r : Int), s = "" ∨ e = "" ∨ f = "" →
        buildExons chrom strand (pre ++ (s, e, f, r) :: post)
          = buildExons chrom strand (pre ++ post)) ∧
    (lineToTranscript emptyFrameLine).map
        (fun t => t.exonsRaw.map
          (fun ex => (ex.base.start, ex.base.end_, ex.rank, ex.frame_offset)))
      = .ok [((100 : Int), (200 : Int), some (1 : Int), some (0 : Int))] := by
  constructor
  · intro chrom strand pre post s e f r hskip
    induction pre with
    | nil =>
      rcases hskip with h | h | h <;> simp [buildExons, h]
    | cons q pre ih =>
      obtain ⟨qs, qe, qf, qr⟩ := q
      simp only [List.cons_append, buildExons, List.append_eq, ih]
  · rfl

/-- C7 witness: a concrete triplet with an empty start token is dropped. -/
theorem c7_witness_empty_start_dropped :
    buildExons "chr1" "+" ([] ++ ("", "5", "0", 1) :: [("2", "5", "0", 2)])
      = buildExons "chr1" "+" ([] ++ [("2", "5", "0", 2)]) :=
  c7_empty_token_triplet_skipped.1 "chr1" "+" [] [("2", "5", "0", 2)]
    "" "5" "0" 1 (Or.inl rfl)

/-- C8: transcript_by_accession yields exactly the traversed transcripts
whose accession starts with a match of the (by default case-insensitive)
pattern; matching is anchored at the start but not at the end, so the
pattern NM_001 keeps both accession NM_001 and accession NM_0012, and a
lower-case pattern still matches. -/
theorem c8_accession_anchored_prefix_filter :
    (∀ (lines : List (List String)) (pat : String) (ts : List Transcript),
        refGeneAll lines = .ok ts →
        transcript_by_accession pat lines
          = .ok (ts.filter (fun tr => reMatchLit pat tr.accession)) ∧
        ∀ t, t ∈ ts.filter (fun tr => reMatchLit pat tr.accession) ↔
              t ∈ ts ∧ reMatchLit pat t.accession = true) ∧
    reMatchLit "NM_001" "NM_001" = true ∧
    reMatchLit "NM_001" "NM_0012" = true ∧
    reMatchLit "nm_001" "NM_0012" = true ∧
    ("NM_0012" : String) ≠ "NM_001" ∧
    (transcript_by_accession "NM_001" [accessionLineA, accessionLineB]).map
        (List.map (fun t => t.accession))
      = .ok ["NM_001", "NM_0012"] := by
  refine ⟨?_, rfl, rfl, rfl, by decide, rfl⟩
  intro lines pat ts h
  constructor
  · unfold transcript_by_accession
    rw [h]
  · intro t
    simp [List.mem_filter]

/-- C8 witness: on a file with accessions NM_001 and NM_0012, the filter
form of the traversal holds at the concrete input. -/
theorem c8_witness_concrete_filter :
    refGeneAll [accessionLineA, accessionLineB]
        = .ok [parsedTranscript accessionLineA,
               parsedTranscript accessionLineB] ∧
      transcript_by_accession "NM_001" [accessionLineA, accessionLineB]
        = .ok ([parsedTranscript accessionLineA,
                parsedTranscript accessionLineB].filter
            (fun tr => reMatchLit "NM_001" tr.accession)) :=
  ⟨rfl,
    (c8_accession_anchored_prefix_filter.1 [accessionLineA, accessionLineB]
      "NM_001" [parsedTranscript accessionLineA,
                parsedTranscript accessionLineB] rfl).1⟩

/-- C9: for a parsed transcript with one non-UTR exon whose end coordinate
equals coding_start, accessing coding_intervals raises (the clipped region
is empty and CodingRegion construction asserts end > start) instead of
returning a sequence. -/
theorem c9_boundary_exon_raises :
    (lineToTranscript boundaryExonLine).map (fun t =>
        (t.exons.map (fun e => (e.is_UTR, e.base.end_)), t.coding_start,
         t.coding_intervals))
      = .ok ([(false, (150 : Int))], (150 : Int),
          .error
            (.assertionError "Exclusive end must be greater than start")) :=
  rfl

end RefGene
